import Mathlib

/-!
Verification of the SCPI serial-instrument driver layer (`labinstruments`).

The development shallowly embeds the command/response protocol engine of
`labinstruments/Instrument.py` (class `SCPISerialInstrument`) together with the
Agilent 33250A adapters (`labinstruments/Agilent33250A.py`, legacy revision, and
`labinstruments/instruments/Agilent33250A.py`, current revision).

Modelling conventions:
* Python strings are Lean `String`s; bytes on the wire are `List Nat`
  (one `Nat < 256` per byte, obtained from the ASCII code of each character).
* The serial port and the simulated instrument are a record `Instr`:
  `tx` is the ordered list of frames written to the transport, `rx` the ordered
  list of raw lines the instrument will hand to `readline` (an empty `rx`
  models a read timeout, which in `pyserial` yields an empty line).
* A Python exception is an explicit `PyErr` value; a raising call returns
  `Except (PyErr × Instr) …` so that the side effects performed before the
  raise remain observable in the carried state.
* `time()` in polling loops is abstracted to the iteration counter: each
  transport read costs one time unit.
-/

/-- ASCII lower-casing of one character, modelling Python `str.lower` on the
ASCII range (the only range the driver uses: SCPI is an ASCII protocol). -/
def pyLowerChar (c : Char) : Char :=
  if 65 ≤ c.toNat ∧ c.toNat ≤ 90 then Char.ofNat (c.toNat + 32) else c

/-- Lower-casing of a character list, modelling Python `str.lower`. -/
def lowerL (l : List Char) : List Char := l.map pyLowerChar

/-- Boolean test that the first list is an initial segment of the second. -/
def leadsL : List Char → List Char → Bool
  | [], _ => true
  | _ :: _, [] => false
  | a :: as, b :: bs => a == b && leadsL as bs

/-- Boolean substring containment on character lists, modelling the Python
`in` operator on strings. -/
def occursIn (needle hay : List Char) : Bool :=
  match hay with
  | [] => needle.isEmpty
  | c :: t => leadsL needle (c :: t) || occursIn needle t

/-- Python `str.rstrip(chars)`: remove every trailing character that belongs to
the character set `chars` (NOT an exact-suffix strip). This is what
`read_without_checking_errors` does with the instrument-to-PC terminator. -/
def rstripL (l chars : List Char) : List Char :=
  (l.reverse.dropWhile (fun c => decide (c ∈ chars))).reverse

/-- ASCII encoding of a string as wire bytes (`str.encode('ASCII')`). -/
def strBytes (s : String) : List Nat := s.data.map Char.toNat

/-- Framing-codec encode (`write_without_checking_errors`, line 59 of
`Instrument.py`): append the PC-to-instrument terminator. -/
def encodeCmd (cmd term : String) : String := cmd ++ term

/-- Framing-codec decode (`read_without_checking_errors`, lines 67-71 of
`Instrument.py`): `response.decode('ASCII').rstrip(terminator)` — a
character-set right-trim with the instrument-to-PC terminator. -/
def decodeLine (raw term : String) : String := ⟨rstripL raw.data term.data⟩

/-- Clean-state test of the base `SCPISerialInstrument.check_whether_error`
(`Instrument.py` line 107): the check succeeds iff the lower-cased literal
`'"No error"'` occurs as a substring of the lower-cased response
(`'"No error"'.lower() in msg.lower()`). -/
def isCleanBase (msg : String) : Bool :=
  occursIn (lowerL "\"No error\"".data) (lowerL msg.data)

/-- Clean-state test of the legacy override `Agilent33250A.check_whether_error`
(top-level `Agilent33250A.py` lines 13-16): the check succeeds iff the response
is the exact string `'+0,"No error"'` (`msg != '+0,"No error"'` raises). -/
def agilentLegacyClean (msg : String) : Bool := msg == "+0,\"No error\""

/-- Serial-port parity setting (`serial.Serial.parity`). -/
inductive Parity
  | none | even | odd
  deriving DecidableEq

/-- Python exceptions raised by the driver, as structured values.
`instrumentSays msg` models `RuntimeError(f'The instrument says: {repr(msg)}')`
with the raw instrument response `msg` carried verbatim; `identityMismatch`
models the `RuntimeError` raised by `__init__` when an expected
manufacturer/model/serial substring is absent from `*IDN?` (the spec's
`IdentityMismatchError`); `flowControlError` and `parityError` model the
`RuntimeError`s guarding binary transfer (the spec's `ProtocolError`);
`capacityError` and `sampleRangeError` model the `ValueError`s of the waveform
loaders; `emptySequenceError` models `ValueError` from `max([])`;
`zeroDivisionError` models Python `ZeroDivisionError`. -/
inductive PyErr
  | instrumentSays (msg : String)
  | identityMismatch (expected reported : String)
  | flowControlError
  | parityError
  | capacityError
  | sampleRangeError
  | emptySequenceError
  | zeroDivisionError
  deriving DecidableEq

/-- Which `PyErr`s the specification classifies as `ProtocolError`. -/
def PyErr.isProtocolViolation : PyErr → Bool
  | .flowControlError => true
  | .parityError => true
  | _ => false

/-- State of one `SCPISerialInstrument` connection: the two terminators, the
serial-port configuration relevant to binary transfer, the frames written so
far (`tx`, newest last), the raw lines the simulated instrument will deliver
to `readline` (`rx`, an empty list modelling a read that times out and yields
an empty line), and the lazily cached `*IDN?` string (`_idn`). -/
structure Instr where
  termItoP : String
  termPtoI : String
  xonxoff : Bool
  parity : Parity
  tx : List (List Nat)
  rx : List String
  idnCache : Option String
  deriving DecidableEq

/-- `write_without_checking_errors` (`Instrument.py` lines 51-63): append the
PC-to-instrument terminator, ASCII-encode, write to the port and drain. -/
def writeWithoutCheckingErrors (cmd : String) (s : Instr) : Instr :=
  { s with tx := s.tx ++ [strBytes (encodeCmd cmd s.termPtoI)] }

/-- `read_without_checking_errors` (`Instrument.py` lines 65-73): `readline`
(one queued raw line, or the empty string when the read times out), ASCII
decode, right-strip the instrument-to-PC terminator characters. -/
def readWithoutCheckingErrors (s : Instr) : String × Instr :=
  match s.rx with
  | [] => ("", s)
  | r :: rest => (decodeLine r s.termItoP, { s with rx := rest })

/-- `query_without_checking_errors` (`Instrument.py` lines 75-84). -/
def queryWithoutCheckingErrors (cmd : String) (s : Instr) : String × Instr :=
  readWithoutCheckingErrors (writeWithoutCheckingErrors cmd s)

/-- `check_whether_error` (`Instrument.py` lines 104-108): query `SYST:ERR?`
and raise `RuntimeError` carrying the response unless the response contains
`'"No error"'` case-insensitively. -/
def checkWhetherError (s : Instr) : Except (PyErr × Instr) Instr :=
  if isCleanBase (queryWithoutCheckingErrors "SYST:ERR?" s).1 then
    .ok (queryWithoutCheckingErrors "SYST:ERR?" s).2
  else
    .error (.instrumentSays (queryWithoutCheckingErrors "SYST:ERR?" s).1,
      (queryWithoutCheckingErrors "SYST:ERR?" s).2)

/-- `write` (`Instrument.py` lines 86-89): send, then check the error queue. -/
def write (cmd : String) (s : Instr) : Except (PyErr × Instr) Instr :=
  checkWhetherError (writeWithoutCheckingErrors cmd s)

/-- `read` (`Instrument.py` lines 91-95): read, then check the error queue
(named `readChecked` here because bare `read` is ambiguous with a library
name). -/
def readChecked (s : Instr) : Except (PyErr × Instr) (String × Instr) :=
  (checkWhetherError (readWithoutCheckingErrors s).2).map
    (fun s2 => ((readWithoutCheckingErrors s).1, s2))

/-- `query` (`Instrument.py` lines 97-102): send, read the response, then
check the error queue; the response is returned when no error was reported. -/
def query (cmd : String) (s : Instr) : Except (PyErr × Instr) (String × Instr) :=
  (checkWhetherError (readWithoutCheckingErrors (writeWithoutCheckingErrors cmd s)).2).map
    (fun s3 => ((readWithoutCheckingErrors (writeWithoutCheckingErrors cmd s)).1, s3))

/-- The `idn` property (`Instrument.py` lines 110-115): memoized `*IDN?`
query; the cache attribute is only assigned when the query succeeds. -/
def idn (s : Instr) : Except (PyErr × Instr) (String × Instr) :=
  match s.idnCache with
  | some v => .ok (v, s)
  | Option.none =>
      (query "*IDN?" s).map (fun p => (p.1, { p.2 with idnCache := some p.1 }))

/-- State carried by a value-returning engine call, whether it raised or not
(a Python exception does not undo the serial-port side effects). -/
def resultState {α : Type} : Except (PyErr × Instr) (α × Instr) → Instr
  | .ok (_, s) => s
  | .error (_, s) => s

/-- State carried by a unit engine call, whether it raised or not. -/
def resultStateU : Except (PyErr × Instr) Instr → Instr
  | .ok s => s
  | .error (_, s) => s

/-- A concrete freshly opened connection with newline terminators in both
directions, no software flow control and no parity, used by the witnesses
(each witness overrides `rx` with its scenario's instrument responses). -/
def instr0 : Instr :=
  { termItoP := "\n", termPtoI := "\n", xonxoff := false, parity := Parity.none,
    tx := [], rx := [], idnCache := none }

/-- Connection state about to serve one `*IDN?` query followed by one clean
error-queue response. -/
def instrIdn : Instr :=
  { instr0 with rx := ["AGILENT,33250A,0,SN1\n", "+0,\"No error\"\n"] }

/-- The state `instrIdn` reaches after the first successful `idn` call: both
responses consumed, both frames transmitted, identity cached. -/
def instrIdnAfter : Instr :=
  { instr0 with
    tx := [strBytes "*IDN?\n", strBytes "SYST:ERR?\n"],
    idnCache := some "AGILENT,33250A,0,SN1" }

/-- Connection state whose instrument will answer the next error-queue query
with a non-clean report. -/
def instrErr : Instr := { instr0 with rx := ["-113,\"Undefined header\"\n"] }

/-- Connection state about to serve one query response followed by one clean
error-queue response. -/
def instrQ : Instr := { instr0 with rx := ["1.234E+03\n", "+0,\"No error\"\n"] }

/-- Outcome of the `wait_for_trigger` polling loop: a truthy response arrived,
or the timeout budget was exceeded (`raise TimeoutError`). -/
inductive WaitRes
  | done
  | timedOut
  deriving DecidableEq

/-- One polling iteration's `ready = bool(self.read())` guarded by
`try/except Exception` (top-level `Agilent33250A.py` lines 67-70): a raised
error is swallowed and counts as not ready, but the serial-port side effects
of the failed read remain; `bool` of a Python string is its non-emptiness. -/
def readTruthy (s : Instr) : Bool × Instr :=
  match readChecked s with
  | .ok (r, s2) => (r != "", s2)
  | .error (_, s2) => (false, s2)

/-- The `while True` loop of `Agilent33250A.wait_for_trigger` (top-level
`Agilent33250A.py` lines 66-74). `fuel` bounds the unrolling of the unbounded
loop (`none` means fuel ran out); `k` counts completed iterations, and
`time() - t0` after the k-th read is abstracted as `k + 1` time units (one
unit per transport read). The `shouldStop` argument models the `should_stop`
callable, evaluated at iteration `i` as `shouldStop i`; faithfully to the
source, the loop body never consults it. -/
def waitForTriggerLoop (timeout : Option Nat) (shouldStop : Nat → Bool) :
    Nat → Nat → Instr → Option (WaitRes × Instr)
  | 0, _, _ => none
  | fuel + 1, k, s =>
    match readTruthy s with
    | (true, s2) => some (.done, s2)
    | (false, s2) =>
      match timeout with
      | some tmax =>
          if k + 1 > tmax then some (.timedOut, s2)
          else waitForTriggerLoop timeout shouldStop fuel (k + 1) s2
      | Option.none => waitForTriggerLoop timeout shouldStop fuel (k + 1) s2

/-- `Agilent33250A.wait_for_trigger` (top-level `Agilent33250A.py` lines
56-74): an error-checked `write("*OPC?")` (whose exception propagates), then
the polling loop. -/
def waitForTrigger (timeout : Option Nat) (shouldStop : Nat → Bool)
    (fuel : Nat) (s : Instr) :
    Option (Except (PyErr × Instr) (WaitRes × Instr)) :=
  match write "*OPC?" s with
  | .error e => some (.error e)
  | .ok s1 => (waitForTriggerLoop timeout shouldStop fuel 0 s1).map .ok

/-- Little-endian decimal digits of `n`, fuel-based so the kernel can
evaluate it; `decDigitsAux fuel n` is the digit list whenever `n ≤ fuel`. -/
def decDigitsAux : Nat → Nat → List Nat
  | 0, _ => []
  | _ + 1, 0 => []
  | fuel + 1, n + 1 => ((n + 1) % 10) :: decDigitsAux fuel ((n + 1) / 10)

/-- Little-endian decimal digits of `n` (empty for `n = 0`). -/
def decDigits (n : Nat) : List Nat := decDigitsAux n n

/-- The Python format field `f'{n:06d}'` as big-endian digit values: the
decimal digits of `n` left-padded with zeros to at least six digits. -/
def pad6 (n : Nat) : List Nat :=
  List.replicate (6 - (decDigits n).length) 0 ++ (decDigits n).reverse

/-- Value denoted by a big-endian list of decimal digits. -/
def decVal (l : List Nat) : Nat := l.foldl (fun a d => 10 * a + d) 0

/-- Value denoted by a little-endian list of decimal digits. -/
def decValRev (l : List Nat) : Nat := l.foldr (fun d a => d + 10 * a) 0

/-- `s.to_bytes(length=2, byteorder='big', signed=True)`: the two big-endian
bytes of the 16-bit two's-complement representation of `s`. -/
def int16BE (s : Int) : List Nat :=
  [(s % 65536).toNat / 256, (s % 65536).toNat % 256]

/-- Specification-side decoder of a big-endian signed 16-bit byte pair. -/
def decodeBE16 (b : List Nat) : Int :=
  if (32768 : Int) ≤ (b.headD 0 : Int) * 256 + (b.tail.headD 0 : Int) then
    (b.headD 0 : Int) * 256 + (b.tail.headD 0 : Int) - 65536
  else
    (b.headD 0 : Int) * 256 + (b.tail.headD 0 : Int)

/-- `Agilent33250A.load_arbitrary_waveform_samples_in_binary_format`
(`instruments/Agilent33250A.py` lines 71-92): capacity check (`ValueError`),
XON/XOFF and parity guards (`RuntimeError`, the spec's `ProtocolError`),
sample-range check (`ValueError`), then an error-checked
`write('FORM:BORD NORM')`, then one raw serial write of the frame
`'DATA:DAC VOLATILE, #6' + f'{2*len:06d}'` followed by the big-endian signed
16-bit payload and the PC-to-instrument terminator, then a final error
check. -/
def loadArbitraryWaveformSamplesInBinaryFormat (samples : List Int) (s : Instr) :
    Except (PyErr × Instr) Instr :=
  if samples.length > 65536 then .error (.capacityError, s)
  else if s.xonxoff = true then .error (.flowControlError, s)
  else if s.parity ≠ Parity.none then .error (.parityError, s)
  else if samples.any (fun x => decide (¬(-2047 ≤ x ∧ x ≤ 2047))) then
    .error (.sampleRangeError, s)
  else
    match write "FORM:BORD NORM" s with
    | .error e => .error e
    | .ok s1 =>
      checkWhetherError
        { s1 with
          tx := s1.tx ++ [strBytes "DATA:DAC VOLATILE, #6"
            ++ (pad6 (2 * samples.length)).map (fun d => 48 + d)
            ++ (samples.map int16BE).flatten
            ++ strBytes s1.termPtoI] }

/-- Connection state with software flow control (XON/XOFF) enabled. -/
def instrXon : Instr := { instr0 with xonxoff := true }

/-- Connection state answering both error-queue checks of a binary waveform
upload with the clean report. -/
def instrBin : Instr :=
  { instr0 with rx := ["+0,\"No error\"\n", "+0,\"No error\"\n"] }

/-- One optional identity check of `SCPISerialInstrument.__init__`
(`Instrument.py` lines 37-46): when an expected substring is supplied, access
`self.idn` (the memoized `*IDN?` query, which may itself raise) and raise
`RuntimeError` (the spec's `IdentityMismatchError`) unless
`expected.lower() in self.idn.lower()`. -/
def checkIdentityField (expected : Option String) (s : Instr) :
    Except (PyErr × Instr) Instr :=
  match expected with
  | Option.none => .ok s
  | some e =>
    match idn s with
    | .error es => .error es
    | .ok (v, s2) =>
      if occursIn (lowerL e.data) (lowerL v.data) then .ok s2
      else .error (.identityMismatch e v, s2)

/-- The identity-verification phase of `SCPISerialInstrument.__init__`
(`Instrument.py` lines 37-46): manufacturer, then model, then serial number,
each checked only when supplied, failing fast on the first mismatch. -/
def identityChecks (manufacturer model serialNumber : Option String)
    (s : Instr) : Except (PyErr × Instr) Instr :=
  match checkIdentityField manufacturer s with
  | .error e => .error e
  | .ok s1 =>
    match checkIdentityField model s1 with
    | .error e => .error e
    | .ok s2 => checkIdentityField serialNumber s2

/-- Sequential threading of optional identity checks, used to reason about
`identityChecks` uniformly (`identityChecks man mod ser s` equals
`idChain [man, mod, ser] s`, see `identityChecks_eq_chain`). -/
def idChain : List (Option String) → Instr → Except (PyErr × Instr) Instr
  | [], t => .ok t
  | o :: os, t =>
    match checkIdentityField o t with
    | .error e => .error e
    | .ok t2 => idChain os t2

/-- Python `int()` on a rational: truncation toward zero. -/
def pyInt (q : ℚ) : Int := q.num.tdiv (q.den : Int)

/-- Python `', '.join(strs)`. -/
def joinCommaSpace : List String → String
  | [] => ""
  | x :: xs => xs.foldl (fun a b => a ++ ", " ++ b) x

/-- `maximum_absolute_voltage` of `configure_arbitrary_waveform`
(`instruments/Agilent33250A.py` lines 46-47): Python
`max([abs(s) for s in samples])`; `max` of the empty list raises, which the
caller models separately. Python floats are modelled as exact rationals. -/
def maxAbsVoltage : List ℚ → ℚ
  | [] => 0
  | v :: vs => (vs.map (fun x => |x|)).foldl max |v|

/-- `Agilent33250A.load_arbitrary_waveform_samples`
(`instruments/Agilent33250A.py` lines 62-69): capacity check, then the ASCII
`DATA VOLATILE, …` upload and `*WAI`, both unchecked, then one error check.
The textual rendering of each float (`str(sample)`) is abstracted as the
formatter parameter `fmt`, since floats are modelled as exact rationals. -/
def loadArbitraryWaveformSamples (fmt : ℚ → String) (samples : List ℚ)
    (s : Instr) : Except (PyErr × Instr) Instr :=
  if samples.length > 65536 then .error (.capacityError, s)
  else
    checkWhetherError
      (writeWithoutCheckingErrors "*WAI"
        (writeWithoutCheckingErrors
          ("DATA VOLATILE, " ++ joinCommaSpace (samples.map fmt)) s))

/-- `Agilent33250A.apply` (`instruments/Agilent33250A.py` lines 10-13), with
the `f'{x:e}'` float formatting abstracted as `fmtE`. -/
def applyCmd (fmtE : ℚ → String) (fn : String)
    (frequency voltPP voltOffset : ℚ) (s : Instr) :
    Except (PyErr × Instr) Instr :=
  match write "VOLT:UNIT VPP" s with
  | .error e => .error e
  | .ok s1 => write ("APPLY:" ++ fn ++ " " ++ fmtE frequency ++ ", "
      ++ fmtE voltPP ++ ", " ++ fmtE voltOffset) s1

/-- `Agilent33250A.configure_arbitrary_waveform`
(`instruments/Agilent33250A.py` lines 44-60): normalize every sample by the
maximum absolute voltage — Python raises `ValueError` on `max([])` for the
empty list and `ZeroDivisionError` on the first division when that maximum is
zero, in both cases before any command is sent — then upload in ASCII or
binary form, select the volatile waveform, and apply
function/frequency/amplitude/offset. -/
def configureArbitraryWaveform (fmt fmtE : ℚ → String) (samplesInVolt : List ℚ)
    (frequency : ℚ) (sendInBinaryFormat : Bool) (s : Instr) :
    Except (PyErr × Instr) Instr :=
  match samplesInVolt with
  | [] => .error (.emptySequenceError, s)
  | v :: vs =>
    if maxAbsVoltage (v :: vs) = 0 then .error (.zeroDivisionError, s)
    else
      match (if sendInBinaryFormat = false then
          loadArbitraryWaveformSamples fmt
            ((v :: vs).map (· / maxAbsVoltage (v :: vs))) s
        else
          loadArbitraryWaveformSamplesInBinaryFormat
            (((v :: vs).map (· / maxAbsVoltage (v :: vs))).map
              (fun q => pyInt (q * 2047))) s) with
      | .error e => .error e
      | .ok s1 =>
        match write "FUNC:USER volatile" s1 with
        | .error e => .error e
        | .ok s2 =>
          applyCmd fmtE "user" frequency
            ((vs.foldl max v - vs.foldl min v) / 2) 0 s2

instance {ε α : Type} [DecidableEq ε] [DecidableEq α] : DecidableEq (Except ε α) :=
  fun x y =>
  match x, y with
  | .ok a, .ok b =>
      if h : a = b then isTrue (h ▸ rfl) else isFalse (fun he => h (Except.ok.inj he))
  | .error a, .error b =>
      if h : a = b then isTrue (h ▸ rfl) else isFalse (fun he => h (Except.error.inj he))
  | .ok _, .error _ => isFalse (fun he => Except.noConfusion he)
  | .error _, .ok _ => isFalse (fun he => Except.noConfusion he)

theorem leadsL_iff (n h : List Char) : leadsL n h = true ↔ ∃ v, h = n ++ v := by
  induction n generalizing h with
  | nil => simp [leadsL]
  | cons a as ih =>
    cases h with
    | nil => simp [leadsL]
    | cons b bs =>
      simp only [leadsL, Bool.and_eq_true, beq_iff_eq, ih, List.cons_append,
        List.cons.injEq]
      constructor
      · rintro ⟨rfl, v, rfl⟩
        exact ⟨v, rfl, rfl⟩
      · rintro ⟨v, rfl, rfl⟩
        exact ⟨rfl, v, rfl⟩

theorem occursIn_iff (n h : List Char) : occursIn n h = true ↔ ∃ u v, h = u ++ n ++ v := by
  induction h with
  | nil =>
    simp only [occursIn, List.isEmpty_iff]
    constructor
    · rintro rfl
      exact ⟨[], [], rfl⟩
    · rintro ⟨u, v, huv⟩
      rcases List.append_eq_nil.mp (List.append_eq_nil.mp huv.symm).1 with ⟨-, h2⟩
      exact h2
  | cons c t ih =>
    simp only [occursIn, Bool.or_eq_true, leadsL_iff, ih]
    constructor
    · rintro (⟨v, hv⟩ | ⟨u, v, huv⟩)
      · exact ⟨[], v, by simpa using hv⟩
      · exact ⟨c :: u, v, by simp [huv]⟩
    · rintro ⟨u, v, huv⟩
      cases u with
      | nil => exact Or.inl ⟨v, by simpa using huv⟩
      | cons x xs =>
        simp only [List.cons_append, List.cons.injEq] at huv
        exact Or.inr ⟨xs, v, huv.2⟩

/-- Round-trip helper: dropping while a predicate holds over a block where it
holds everywhere skips the whole block. -/
theorem dropWhile_append_of_all {p : Char → Bool} {l1 l2 : List Char}
    (h : ∀ x ∈ l1, p x = true) :
    List.dropWhile p (l1 ++ l2) = List.dropWhile p l2 := by
  induction l1 with
  | nil => rfl
  | cons a as ih =>
    simp only [List.cons_append, List.dropWhile_cons_of_pos (h a (List.mem_cons_self a as))]
    exact ih (fun x hx => h x (List.mem_cons_of_mem a hx))

/-- Round-trip helper: dropping while a predicate that fails everywhere holds
drops nothing. -/
theorem dropWhile_eq_self_of_all {p : Char → Bool} {l : List Char}
    (h : ∀ x ∈ l, p x = false) :
    List.dropWhile p l = l := by
  cases l with
  | nil => rfl
  | cons a as =>
    exact List.dropWhile_cons_of_neg (by simp [h a (List.mem_cons_self a as)])

theorem string_data_inj {a b : String} (h : a.data = b.data) : a = b := by
  cases a
  cases b
  exact congrArg String.mk h

/-- C2 (falsified as stated): the command `"A\r"` contains no embedded
occurrence of the terminator `"\r\n"`, yet encoding it and decoding the result
with that same terminator does not give the command back, because the decode
path is Python `str.rstrip`, a character-set trim, not an exact-suffix strip. -/
theorem c2_counterexample :
    occursIn "\r\n".data "A\r".data = false ∧
    decodeLine (encodeCmd "A\r" "\r\n") "\r\n" ≠ "A\r" := by
  constructor
  · decide
  · decide

/-- C2 (amended): for every command string containing no character of the
terminator sequence, encoding (appending the PC-to-instrument terminator) and
then decoding the resulting line with the same terminator yields back the
original command text exactly. -/
theorem c2_roundtrip (cmd term : String)
    (h : ∀ c ∈ cmd.data, c ∉ term.data) :
    decodeLine (encodeCmd cmd term) term = cmd := by
  apply string_data_inj
  show rstripL (cmd ++ term).data term.data = cmd.data
  have hdata : (cmd ++ term).data = cmd.data ++ term.data := rfl
  unfold rstripL
  rw [hdata, List.reverse_append,
    dropWhile_append_of_all (fun x hx => by
      rw [List.mem_reverse] at hx
      exact decide_eq_true hx),
    dropWhile_eq_self_of_all (fun x hx => by
      rw [List.mem_reverse] at hx
      exact decide_eq_false (h x hx)),
    List.reverse_reverse]

/-- Witness for `c2_roundtrip` at a concrete command and terminator. -/
theorem c2_roundtrip_witness :
    decodeLine (encodeCmd "FREQ 1000" "\n") "\n" = "FREQ 1000" :=
  c2_roundtrip "FREQ 1000" "\n" (by decide)

theorem pyLowerChar_ne_quote {c : Char} (h : c ≠ '"') : pyLowerChar c ≠ '"' := by
  have key : ∀ n : Nat, n < 91 → 65 ≤ n → Char.ofNat (n + 32) ≠ '"' := by decide
  unfold pyLowerChar
  split
  · next hb => exact key c.toNat (Nat.lt_succ_of_le hb.2) hb.1
  · exact h

theorem quote_not_mem_lowerL {l : List Char} (h : '"' ∉ l) : '"' ∉ lowerL l := by
  intro hmem
  rcases List.mem_map.mp hmem with ⟨c, hc, hlc⟩
  exact pyLowerChar_ne_quote (fun hceq => h (hceq ▸ hc)) hlc

/-- In a list with a marked occurrence of `q` whose prefix is `q`-free, the
decomposition at that occurrence is unique. -/
theorem split_at_first {q : Char} (u : List Char) :
    ∀ a r r' : List Char, u ++ q :: r = a ++ q :: r' → q ∉ u → q ∉ a →
      u = a ∧ r = r' := by
  induction u with
  | nil =>
    intro a r r' heq _ ha
    cases a with
    | nil => simpa using heq
    | cons b bs =>
      exfalso
      simp only [List.nil_append, List.cons_append, List.cons.injEq] at heq
      exact ha (heq.1 ▸ List.mem_cons_self b bs)
  | cons x xs ih =>
    intro a r r' heq hu ha
    cases a with
    | nil =>
      exfalso
      simp only [List.cons_append, List.nil_append, List.cons.injEq] at heq
      exact hu (heq.1 ▸ List.mem_cons_self x xs)
    | cons b bs =>
      simp only [List.cons_append, List.cons.injEq] at heq
      have hrec := ih bs r r' heq.2
        (fun hq => hu (List.mem_cons_of_mem x hq))
        (fun hq => ha (List.mem_cons_of_mem b hq))
      exact ⟨by rw [heq.1, hrec.1], hrec.2⟩

/-- C1 (falsified as stated): the claim requires `check_error` to succeed on
the response `'0,"No error"'` regardless of the numeric code's leading sign,
but the legacy `Agilent33250A.check_whether_error` override compares against
the exact string `'+0,"No error"'` and raises on `'0,"No error"'`, an input
the base engine itself recognises as clean. -/
theorem c1_counterexample :
    agilentLegacyClean "0,\"No error\"" = false ∧
    isCleanBase "0,\"No error\"" = true := by
  constructor
  · decide
  · decide

/-- C1 (amended): the base `SCPISerialInstrument.check_whether_error` succeeds
iff, for a well-formed error-queue response `<code>,"<message>"` whose code and
message contain no double quote, the message compared case-insensitively equals
`"No error"` — regardless of the numeric code or leading sign; in particular it
succeeds on `'0,"No error"'` and `'+0,"No error"'` and fails on
`'-1,"Syntax error"'`. The legacy Agilent override is exempted (see the
counterexample). -/
theorem c1_base_clean_iff (code msg : String)
    (hc : '"' ∉ code.data) (hm : '"' ∉ msg.data) :
    (isCleanBase (code ++ "\"" ++ msg ++ "\"") = true ↔
      lowerL msg.data = "no error".data) ∧
    isCleanBase "0,\"No error\"" = true ∧
    isCleanBase "+0,\"No error\"" = true ∧
    isCleanBase "-1,\"Syntax error\"" = false := by
  refine ⟨?_, by decide, by decide, by decide⟩
  have hcl : '"' ∉ lowerL code.data := quote_not_mem_lowerL hc
  have hml : '"' ∉ lowerL msg.data := quote_not_mem_lowerL hm
  have hinner : '"' ∉ "no error".data := by decide
  have hq : pyLowerChar '"' = '"' := by decide
  have h1 : (code ++ "\"" ++ msg ++ "\"").data
      = ((code.data ++ ['"']) ++ msg.data) ++ ['"'] := rfl
  have hresp : lowerL (code ++ "\"" ++ msg ++ "\"").data
      = lowerL code.data ++ '"' :: (lowerL msg.data ++ ['"']) := by
    rw [h1]
    simp [lowerL, hq, List.append_assoc]
  have hneedle : lowerL "\"No error\"".data = '"' :: ("no error".data ++ ['"']) := by
    decide
  unfold isCleanBase
  rw [hresp, hneedle, occursIn_iff]
  constructor
  · rintro ⟨u, v, huv⟩
    have huv2 : lowerL code.data ++ '"' :: (lowerL msg.data ++ ['"'])
        = u ++ '"' :: (("no error".data ++ ['"']) ++ v) := by
      rw [huv]
      simp [List.append_assoc]
    have hcnt := congrArg (List.count '"') huv2
    simp only [List.count_append, List.count_cons, List.count_nil,
      List.count_eq_zero.mpr hcl, List.count_eq_zero.mpr hml,
      List.count_eq_zero.mpr hinner, beq_self_eq_true, if_true] at hcnt
    have hu0 : '"' ∉ u := by
      rw [← List.count_eq_zero (a := '"')]
      omega
    have hs1 := split_at_first u (lowerL code.data)
      (("no error".data ++ ['"']) ++ v) (lowerL msg.data ++ ['"'])
      huv2.symm hu0 hcl
    have heq2 : "no error".data ++ '"' :: v = lowerL msg.data ++ '"' :: [] := by
      have := hs1.2
      simpa [List.append_assoc] using this
    have hs2 := split_at_first "no error".data (lowerL msg.data) v []
      heq2 hinner hml
    exact hs2.1.symm
  · intro heq
    refine ⟨lowerL code.data, [], ?_⟩
    rw [heq]
    simp [List.append_assoc]

/-- Witness for `c1_base_clean_iff` at the concrete response `'0,"No error"'`
(code `"0,"`, message `"No error"`). -/
theorem c1_base_clean_iff_witness :
    (isCleanBase ("0," ++ "\"" ++ "No error" ++ "\"") = true ↔
      lowerL "No error".data = "no error".data) ∧
    isCleanBase "0,\"No error\"" = true ∧
    isCleanBase "+0,\"No error\"" = true ∧
    isCleanBase "-1,\"Syntax error\"" = false :=
  c1_base_clean_iff "0," "No error" (by decide) (by decide)

theorem rWCE_snd (s : Instr) :
    (readWithoutCheckingErrors s).2 = { s with rx := s.rx.tail } := by
  obtain ⟨t1, t2, xo, pa, tx, rx, ic⟩ := s
  cases rx <;> simp [readWithoutCheckingErrors]

theorem qWCE_snd (cmd : String) (s : Instr) :
    (queryWithoutCheckingErrors cmd s).2
      = { s with
          tx := s.tx ++ [strBytes (encodeCmd cmd s.termPtoI)],
          rx := s.rx.tail } := by
  obtain ⟨t1, t2, xo, pa, tx, rx, ic⟩ := s
  cases rx <;>
    simp [queryWithoutCheckingErrors, readWithoutCheckingErrors,
      writeWithoutCheckingErrors]

theorem resultStateU_check (s : Instr) :
    resultStateU (checkWhetherError s) = (queryWithoutCheckingErrors "SYST:ERR?" s).2 := by
  unfold checkWhetherError
  split <;> rfl

theorem resultState_query (cmd : String) (s : Instr) :
    resultState (query cmd s)
      = resultStateU (checkWhetherError
          (readWithoutCheckingErrors (writeWithoutCheckingErrors cmd s)).2) := by
  unfold query
  cases hc : checkWhetherError (readWithoutCheckingErrors (writeWithoutCheckingErrors cmd s)).2 with
  | ok s3 => simp [Except.map, resultState, resultStateU]
  | error e =>
    obtain ⟨p, st⟩ := e
    simp [Except.map, resultState, resultStateU]

theorem resultState_query_eq (cmd : String) (s : Instr) :
    resultState (query cmd s)
      = { s with
          tx := s.tx ++ [strBytes (encodeCmd cmd s.termPtoI),
            strBytes (encodeCmd "SYST:ERR?" s.termPtoI)],
          rx := s.rx.tail.tail } := by
  rw [resultState_query, resultStateU_check, qWCE_snd, rWCE_snd]
  simp [writeWithoutCheckingErrors]

theorem resultState_map_pair (r : String) (e : Except (PyErr × Instr) Instr) :
    resultState (e.map (fun s2 => (r, s2))) = resultStateU e := by
  cases e with
  | ok s => rfl
  | error p =>
    obtain ⟨a, b⟩ := p
    rfl

/-- C3 (confirmed): for every command sent through `write`, when the
instrument's error queue reports a non-clean state, `write` raises the
`instrument says` error carrying the instrument-reported response text
verbatim, and the state carried by the error shows the command frame already
transmitted — exactly once, before the `SYST:ERR?` frame; no retry, no undo. -/
theorem c3_write_error (cmd : String) (s : Instr)
    (h : isCleanBase (queryWithoutCheckingErrors "SYST:ERR?"
        (writeWithoutCheckingErrors cmd s)).1 = false) :
    write cmd s = .error
      (.instrumentSays (queryWithoutCheckingErrors "SYST:ERR?"
          (writeWithoutCheckingErrors cmd s)).1,
        (queryWithoutCheckingErrors "SYST:ERR?" (writeWithoutCheckingErrors cmd s)).2) ∧
    (queryWithoutCheckingErrors "SYST:ERR?" (writeWithoutCheckingErrors cmd s)).2.tx
      = s.tx ++ [strBytes (encodeCmd cmd s.termPtoI),
          strBytes (encodeCmd "SYST:ERR?" s.termPtoI)] := by
  constructor
  · simp [write, checkWhetherError, h]
  · rw [qWCE_snd]
    simp [writeWithoutCheckingErrors]

/-- Witness for `c3_write_error`: a command whose error check reports
`-113,"Undefined header"`. -/
theorem c3_write_error_witness :
    write "FREQ 1000" instrErr = .error
      (.instrumentSays (queryWithoutCheckingErrors "SYST:ERR?"
          (writeWithoutCheckingErrors "FREQ 1000" instrErr)).1,
        (queryWithoutCheckingErrors "SYST:ERR?"
          (writeWithoutCheckingErrors "FREQ 1000" instrErr)).2) ∧
    (queryWithoutCheckingErrors "SYST:ERR?"
        (writeWithoutCheckingErrors "FREQ 1000" instrErr)).2.tx
      = instrErr.tx ++ [strBytes (encodeCmd "FREQ 1000" instrErr.termPtoI),
          strBytes (encodeCmd "SYST:ERR?" instrErr.termPtoI)] :=
  c3_write_error "FREQ 1000" instrErr (by decide)

/-- C8 (confirmed): the first `idn` access with an empty cache performs the
`*IDN?` query (transmitting exactly the `*IDN?` and `SYST:ERR?` frames) and
caches the result; a repeated access returns the identical string with the
state unchanged, hence zero additional transport reads or writes; any state
with a populated cache is returned untouched; and no other engine call
(`write`, `query`, `read`) ever invalidates the cache. -/
theorem c8_idn_memoized (s s2 : Instr) (v : String)
    (hcache : s.idnCache = none) (hok : idn s = .ok (v, s2)) :
    idn s2 = .ok (v, s2) ∧
    s2.idnCache = some v ∧
    s2.tx = s.tx ++ [strBytes (encodeCmd "*IDN?" s.termPtoI),
      strBytes (encodeCmd "SYST:ERR?" s.termPtoI)] ∧
    (∀ s0 : Instr, ∀ v0 : String, s0.idnCache = some v0 → idn s0 = .ok (v0, s0)) ∧
    (∀ cmd : String, ∀ s0 : Instr,
      (resultStateU (write cmd s0)).idnCache = s0.idnCache ∧
      (resultState (query cmd s0)).idnCache = s0.idnCache ∧
      (resultState (readChecked s0)).idnCache = s0.idnCache) := by
  have hstep : ∃ s3, query "*IDN?" s = .ok (v, s3) ∧
      s2 = { s3 with idnCache := some v } := by
    unfold idn at hok
    rw [hcache] at hok
    cases hq : query "*IDN?" s with
    | ok p =>
      obtain ⟨v0, s3⟩ := p
      rw [hq] at hok
      simp only [Except.map, Except.ok.injEq, Prod.mk.injEq] at hok
      refine ⟨s3, ?_, ?_⟩
      · rw [hok.1]
      · rw [← hok.2, hok.1]
    | error e =>
      rw [hq] at hok
      simp [Except.map] at hok
  obtain ⟨s3, hq, hs2⟩ := hstep
  have h3 : s3 = resultState (query "*IDN?" s) := by rw [hq]; rfl
  refine ⟨?_, ?_, ?_, ?_, ?_⟩
  · simp [idn, hs2]
  · simp [hs2]
  · rw [hs2]
    show s3.tx = _
    rw [h3, resultState_query_eq]
  · intro s0 v0 h0
    simp [idn, h0]
  · intro cmd s0
    refine ⟨?_, ?_, ?_⟩
    · unfold write
      rw [resultStateU_check, qWCE_snd]
      simp [writeWithoutCheckingErrors]
    · rw [resultState_query_eq]
    · unfold readChecked
      rw [resultState_map_pair, resultStateU_check, qWCE_snd, rWCE_snd]

/-- Witness for `c8_idn_memoized`: a concrete first `idn` call and its cached
repeat. -/
theorem c8_idn_memoized_witness :
    idn instrIdnAfter = .ok ("AGILENT,33250A,0,SN1", instrIdnAfter) ∧
    instrIdnAfter.idnCache = some "AGILENT,33250A,0,SN1" ∧
    instrIdnAfter.tx = instrIdn.tx ++ [strBytes (encodeCmd "*IDN?" instrIdn.termPtoI),
      strBytes (encodeCmd "SYST:ERR?" instrIdn.termPtoI)] := by
  have h := c8_idn_memoized instrIdn instrIdnAfter "AGILENT,33250A,0,SN1"
    (by decide) (by decide)
  exact ⟨h.1, h.2.1, h.2.2.1⟩

/-- C9 (confirmed): `query cmd` transmits the command frame, then reads one
response line, then transmits the `SYST:ERR?` frame of the error check and
consumes the second line — so the primary response comes from the first queued
line (read before the error check is issued) and is the value returned when
the check finds no error; when the check reports an error, the response line
has still been consumed and the error carries the second line's text. -/
theorem c9_query_order (cmd : String) (s : Instr) (r0 r1 : String)
    (rest : List String) (hrx : s.rx = r0 :: r1 :: rest) :
    (isCleanBase (decodeLine r1 s.termItoP) = true →
      query cmd s = .ok (decodeLine r0 s.termItoP,
        { s with
          tx := s.tx ++ [strBytes (encodeCmd cmd s.termPtoI),
            strBytes (encodeCmd "SYST:ERR?" s.termPtoI)],
          rx := rest })) ∧
    (isCleanBase (decodeLine r1 s.termItoP) = false →
      query cmd s = .error (.instrumentSays (decodeLine r1 s.termItoP),
        { s with
          tx := s.tx ++ [strBytes (encodeCmd cmd s.termPtoI),
            strBytes (encodeCmd "SYST:ERR?" s.termPtoI)],
          rx := rest })) := by
  obtain ⟨t1, t2, xo, pa, tx, rx, ic⟩ := s
  simp only at hrx
  subst hrx
  constructor <;> intro h <;>
    simp [query, checkWhetherError, queryWithoutCheckingErrors,
      readWithoutCheckingErrors, writeWithoutCheckingErrors, h, Except.map,
      List.append_assoc]

/-- Witness for `c9_query_order`: a concrete `FREQ?` query answered by
`1.234E+03` with a clean error queue. -/
theorem c9_query_order_witness :
    (isCleanBase (decodeLine "+0,\"No error\"\n" instrQ.termItoP) = true →
      query "FREQ?" instrQ = .ok (decodeLine "1.234E+03\n" instrQ.termItoP,
        { instrQ with
          tx := instrQ.tx ++ [strBytes (encodeCmd "FREQ?" instrQ.termPtoI),
            strBytes (encodeCmd "SYST:ERR?" instrQ.termPtoI)],
          rx := [] })) ∧
    (isCleanBase (decodeLine "+0,\"No error\"\n" instrQ.termItoP) = false →
      query "FREQ?" instrQ = .error
        (.instrumentSays (decodeLine "+0,\"No error\"\n" instrQ.termItoP),
        { instrQ with
          tx := instrQ.tx ++ [strBytes (encodeCmd "FREQ?" instrQ.termPtoI),
            strBytes (encodeCmd "SYST:ERR?" instrQ.termPtoI)],
          rx := [] })) :=
  c9_query_order "FREQ?" instrQ "1.234E+03\n" "+0,\"No error\"\n" [] (by decide)

/-- C4 (code bug): the `should_stop` cancel predicate of `wait_for_trigger` is
accepted but never consulted — the loop's result is identical for any two
predicates — and with a cancel predicate true from the very first iteration
against an instrument that never answers, the loop still ends in
`TimeoutError` once the timeout budget is exceeded instead of returning
normally as the claim (and the function's own docstring) states. -/
theorem c4_cancel_predicate_ignored :
    (∀ (timeout : Option Nat) (p q : Nat → Bool) (fuel k : Nat) (s : Instr),
      waitForTriggerLoop timeout p fuel k s = waitForTriggerLoop timeout q fuel k s) ∧
    (waitForTriggerLoop (some 3) (fun _ => true) 10 0 instr0).map Prod.fst
      = some WaitRes.timedOut := by
  constructor
  · intro timeout p q fuel
    induction fuel with
    | zero =>
      intro k s
      rfl
    | succ n ih =>
      intro k s
      rcases hr : readTruthy s with ⟨b, s2⟩
      cases b
      · cases timeout with
        | none => simp [waitForTriggerLoop, hr, ih]
        | some tmax =>
          simp only [waitForTriggerLoop, hr]
          split
          · rfl
          · exact ih (k + 1) s2
      · simp [waitForTriggerLoop, hr]
  · decide

theorem decDigitsAux_correct (fuel : Nat) :
    ∀ n, n ≤ fuel → decValRev (decDigitsAux fuel n) = n := by
  induction fuel with
  | zero =>
    intro n hn
    interval_cases n
    rfl
  | succ m ih =>
    intro n hn
    cases n with
    | zero => rfl
    | succ k =>
      have hdiv : (k + 1) / 10 ≤ m := by
        have h1 : (k + 1) / 10 < k + 1 := Nat.div_lt_self (Nat.succ_pos k) (by norm_num)
        omega
      show decValRev (((k + 1) % 10) :: decDigitsAux m ((k + 1) / 10)) = k + 1
      show (k + 1) % 10 + 10 * decValRev (decDigitsAux m ((k + 1) / 10)) = k + 1
      rw [ih _ hdiv]
      omega

theorem decDigits_correct (n : Nat) : decValRev (decDigits n) = n :=
  decDigitsAux_correct n n le_rfl

theorem decDigitsAux_length (fuel : Nat) :
    ∀ n k : Nat, n ≤ fuel → n < 10 ^ k → (decDigitsAux fuel n).length ≤ k := by
  induction fuel with
  | zero =>
    intro n k hn _
    interval_cases n
    simp [decDigitsAux]
  | succ m ih =>
    intro n k hn hnk
    cases n with
    | zero => simp [decDigitsAux]
    | succ j =>
      cases k with
      | zero =>
        simp only [pow_zero] at hnk
        omega
      | succ t =>
        show ((j + 1) % 10 :: decDigitsAux m ((j + 1) / 10)).length ≤ t + 1
        simp only [List.length_cons]
        have hdiv2 : (j + 1) / 10 < 10 ^ t := by
          rw [Nat.div_lt_iff_lt_mul (by norm_num : 0 < 10)]
          calc j + 1 < 10 ^ (t + 1) := hnk
          _ = 10 ^ t * 10 := by rw [pow_succ]
        have hdm : (j + 1) / 10 ≤ m := by
          have := Nat.div_lt_self (Nat.succ_pos j) (show 1 < 10 by norm_num)
          omega
        have := ih ((j + 1) / 10) t hdm hdiv2
        omega

theorem decDigitsAux_lt (fuel : Nat) :
    ∀ n d : Nat, d ∈ decDigitsAux fuel n → d < 10 := by
  induction fuel with
  | zero =>
    intro n d hd
    simp [decDigitsAux] at hd
  | succ m ih =>
    intro n d hd
    cases n with
    | zero => simp [decDigitsAux] at hd
    | succ j =>
      simp only [decDigitsAux, List.mem_cons] at hd
      rcases hd with rfl | hd
      · exact Nat.mod_lt _ (by norm_num)
      · exact ih _ _ hd

theorem decVal_replicate_zero (k : Nat) (l : List Nat) :
    decVal (List.replicate k 0 ++ l) = decVal l := by
  induction k with
  | zero => rfl
  | succ m ih => simpa [decVal, List.replicate_succ] using ih

theorem decVal_reverse (l : List Nat) : decVal l.reverse = decValRev l := by
  induction l with
  | nil => rfl
  | cons d t ih =>
    rw [List.reverse_cons]
    show List.foldl (fun a d => 10 * a + d) 0 (t.reverse ++ [d]) = decValRev (d :: t)
    rw [List.foldl_append]
    show 10 * List.foldl (fun a d => 10 * a + d) 0 t.reverse + d = d + 10 * decValRev t
    have : List.foldl (fun a d => 10 * a + d) 0 t.reverse = decValRev t := ih
    rw [this]
    ring

theorem pad6_val (n : Nat) : decVal (pad6 n) = n := by
  unfold pad6
  rw [decVal_replicate_zero, decVal_reverse, decDigits_correct]

theorem pad6_length (n : Nat) (h : n < 1000000) : (pad6 n).length = 6 := by
  unfold pad6
  have hle : (decDigits n).length ≤ 6 :=
    decDigitsAux_length n n 6 le_rfl (by norm_num at h ⊢; exact h)
  simp only [List.length_append, List.length_replicate, List.length_reverse]
  omega

theorem pad6_digits_lt (n : Nat) : ∀ d ∈ pad6 n, d < 10 := by
  intro d hd
  unfold pad6 at hd
  rw [List.mem_append] at hd
  rcases hd with hd | hd
  · have := List.eq_of_mem_replicate hd
    omega
  · exact decDigitsAux_lt n n d (List.mem_reverse.mp hd)

theorem int16BE_roundtrip (x : Int) (h1 : -2047 ≤ x) (h2 : x ≤ 2047) :
    (int16BE x).length = 2 ∧ (∀ b ∈ int16BE x, b < 256) ∧
    decodeBE16 (int16BE x) = x := by
  have hmod : 0 ≤ x % 65536 ∧ x % 65536 < 65536 ∧
      (x % 65536 = x ∨ x % 65536 = x + 65536) := by omega
  refine ⟨rfl, ?_, ?_⟩
  · intro b hb
    simp only [int16BE, List.mem_cons, List.not_mem_nil, or_false] at hb
    rcases hb with rfl | rfl
    · omega
    · omega
  · simp only [int16BE, decodeBE16, List.headD, List.tail]
    split <;> omega

/-- C5 (falsified as stated): with software flow control enabled, a binary
transfer of 65537 samples fails with the capacity `ValueError` — not a
`ProtocolError` — because the memory-capacity check precedes the flow-control
check; no bytes are written either way. -/
theorem c5_counterexample :
    loadArbitraryWaveformSamplesInBinaryFormat (List.replicate 65537 0) instrXon
      = .error (.capacityError, instrXon) ∧
    instrXon.xonxoff = true ∧
    PyErr.capacityError.isProtocolViolation = false := by
  refine ⟨?_, rfl, rfl⟩
  unfold loadArbitraryWaveformSamplesInBinaryFormat
  rw [List.length_replicate]
  norm_num

/-- C5 (amended): for every sample list within the 65536-sample memory
capacity, attempting the binary waveform transfer with software flow control
enabled or with a parity bit configured fails with the corresponding
`ProtocolError`, and the state carried by the error is the input state itself
— in particular not a single byte of the transfer has been written to the
transport. -/
theorem c5_flow_control_guard (samples : List Int) (s : Instr)
    (hlen : samples.length ≤ 65536)
    (hbad : s.xonxoff = true ∨ s.parity ≠ Parity.none) :
    loadArbitraryWaveformSamplesInBinaryFormat samples s
      = .error ((if s.xonxoff = true then PyErr.flowControlError
          else PyErr.parityError), s) ∧
    (if s.xonxoff = true then PyErr.flowControlError
      else PyErr.parityError).isProtocolViolation = true := by
  have hnot : ¬ samples.length > 65536 := by omega
  by_cases hx : s.xonxoff = true
  · constructor
    · simp [loadArbitraryWaveformSamplesInBinaryFormat, hnot, hx]
    · simp [hx, PyErr.isProtocolViolation]
  · rcases hbad with hb | hp
    · exact absurd hb hx
    · constructor
      · simp [loadArbitraryWaveformSamplesInBinaryFormat, hnot, hx, hp]
      · simp [hx, PyErr.isProtocolViolation]

/-- Witness for `c5_flow_control_guard`: the spec's sample list
`[-2047, 0, 2047]` with XON/XOFF enabled. -/
theorem c5_flow_control_guard_witness :
    loadArbitraryWaveformSamplesInBinaryFormat [-2047, 0, 2047] instrXon
      = .error ((if instrXon.xonxoff = true then PyErr.flowControlError
          else PyErr.parityError), instrXon) ∧
    (if instrXon.xonxoff = true then PyErr.flowControlError
      else PyErr.parityError).isProtocolViolation = true :=
  c5_flow_control_guard [-2047, 0, 2047] instrXon (by norm_num) (Or.inl rfl)

theorem flatten_int16BE_length (l : List Int) :
    ((l.map int16BE).flatten).length = 2 * l.length := by
  induction l with
  | nil => rfl
  | cons a t ih =>
    simp only [List.map_cons, List.flatten_cons, List.length_append, ih,
      List.length_cons]
    show (int16BE a).length + 2 * t.length = 2 * (t.length + 1)
    show 2 + 2 * t.length = 2 * (t.length + 1)
    ring

/-- C6 (confirmed): under the transfer's preconditions (within capacity, all
samples in range, no XON/XOFF, no parity) and a clean first error check, the
binary block frame transmitted after `FORM:BORD NORM` and its error check is
exactly the ASCII header `DATA:DAC VOLATILE, #`, the single digit `6` (which
equals the number of digits of the length field), the six-digit zero-padded
length field denoting exactly the payload byte count (two bytes per sample),
the payload as big-endian signed 16-bit integers in sample order, and the
PC-to-instrument terminator. -/
theorem c6_binary_frame (samples : List Int) (s : Instr) (r : String)
    (rest : List String)
    (hlen : samples.length ≤ 65536)
    (hrange : ∀ x ∈ samples, -2047 ≤ x ∧ x ≤ 2047)
    (hxon : s.xonxoff = false)
    (hpar : s.parity = Parity.none)
    (hrx : s.rx = r :: rest)
    (hclean : isCleanBase (decodeLine r s.termItoP) = true) :
    (resultStateU (loadArbitraryWaveformSamplesInBinaryFormat samples s)).tx
      = s.tx ++ [strBytes (encodeCmd "FORM:BORD NORM" s.termPtoI),
          strBytes (encodeCmd "SYST:ERR?" s.termPtoI),
          strBytes "DATA:DAC VOLATILE, #6"
            ++ (pad6 (2 * samples.length)).map (fun d => 48 + d)
            ++ (samples.map int16BE).flatten
            ++ strBytes s.termPtoI,
          strBytes (encodeCmd "SYST:ERR?" s.termPtoI)] ∧
    (pad6 (2 * samples.length)).length = 6 ∧
    decVal (pad6 (2 * samples.length)) = ((samples.map int16BE).flatten).length ∧
    ((samples.map int16BE).flatten).length = 2 * samples.length ∧
    (∀ d ∈ pad6 (2 * samples.length), d < 10) ∧
    (∀ x ∈ samples, (int16BE x).length = 2 ∧ (∀ b ∈ int16BE x, b < 256) ∧
      decodeBE16 (int16BE x) = x) := by
  have hnot : ¬ samples.length > 65536 := by omega
  have hany : (samples.any fun x => decide (¬(-2047 ≤ x ∧ x ≤ 2047))) = false := by
    rw [List.any_eq_false]
    intro x hx
    simp [hrange x hx, (hrange x hx).1, (hrange x hx).2]
  obtain ⟨t1, t2, xo, pa, tx0, rx0, ic⟩ := s
  simp only at hxon hpar hrx hclean ⊢
  subst hxon
  subst hpar
  subst hrx
  have hwrite : write "FORM:BORD NORM" ⟨t1, t2, false, Parity.none, tx0, r :: rest, ic⟩
      = .ok ⟨t1, t2, false, Parity.none,
          tx0 ++ [strBytes (encodeCmd "FORM:BORD NORM" t2),
            strBytes (encodeCmd "SYST:ERR?" t2)], rest, ic⟩ := by
    simp [write, checkWhetherError, queryWithoutCheckingErrors,
      readWithoutCheckingErrors, writeWithoutCheckingErrors, hclean,
      List.append_assoc]
  refine ⟨?_, ?_, ?_, flatten_int16BE_length samples, pad6_digits_lt _, ?_⟩
  · simp only [loadArbitraryWaveformSamplesInBinaryFormat]
    rw [if_neg hnot, if_neg (by simp), if_neg (by simp),
      if_neg (by rw [hany]; simp), hwrite]
    rw [resultStateU_check, qWCE_snd]
    simp [List.append_assoc]
  · exact pad6_length _ (by omega)
  · rw [pad6_val, flatten_int16BE_length]
  · intro x hx
    exact int16BE_roundtrip x (hrange x hx).1 (hrange x hx).2

/-- Witness for `c6_binary_frame`: the spec's sample list `[-2047, 0, 2047]`
uploaded over a clean connection. -/
theorem c6_binary_frame_witness :
    (resultStateU (loadArbitraryWaveformSamplesInBinaryFormat
        ([-2047, 0, 2047] : List Int) instrBin)).tx
      = instrBin.tx ++ [strBytes (encodeCmd "FORM:BORD NORM" instrBin.termPtoI),
          strBytes (encodeCmd "SYST:ERR?" instrBin.termPtoI),
          strBytes "DATA:DAC VOLATILE, #6"
            ++ (pad6 (2 * ([-2047, 0, 2047] : List Int).length)).map (fun d => 48 + d)
            ++ (([-2047, 0, 2047] : List Int).map int16BE).flatten
            ++ strBytes instrBin.termPtoI,
          strBytes (encodeCmd "SYST:ERR?" instrBin.termPtoI)] ∧
    (pad6 (2 * ([-2047, 0, 2047] : List Int).length)).length = 6 ∧
    decVal (pad6 (2 * ([-2047, 0, 2047] : List Int).length))
      = ((([-2047, 0, 2047] : List Int).map int16BE).flatten).length ∧
    ((([-2047, 0, 2047] : List Int).map int16BE).flatten).length
      = 2 * ([-2047, 0, 2047] : List Int).length ∧
    (∀ d ∈ pad6 (2 * ([-2047, 0, 2047] : List Int).length), d < 10) ∧
    (∀ x ∈ ([-2047, 0, 2047] : List Int), (int16BE x).length = 2 ∧
      (∀ b ∈ int16BE x, b < 256) ∧ decodeBE16 (int16BE x) = x) :=
  c6_binary_frame [-2047, 0, 2047] instrBin "+0,\"No error\"\n"
    ["+0,\"No error\"\n"] (by norm_num) (by decide) rfl rfl rfl (by decide)

theorem query_ok_of_clean (cmd : String) (s : Instr) (r0 r1 : String)
    (rest : List String) (hrx : s.rx = r0 :: r1 :: rest)
    (hclean : isCleanBase (decodeLine r1 s.termItoP) = true) :
    query cmd s = .ok (decodeLine r0 s.termItoP,
      { s with
        tx := s.tx ++ [strBytes (encodeCmd cmd s.termPtoI),
          strBytes (encodeCmd "SYST:ERR?" s.termPtoI)],
        rx := rest }) := by
  obtain ⟨t1, t2, xo, pa, tx0, rx0, ic⟩ := s
  simp only at hrx hclean
  subst hrx
  simp [query, checkWhetherError, queryWithoutCheckingErrors,
    readWithoutCheckingErrors, writeWithoutCheckingErrors, hclean, Except.map,
    List.append_assoc]


theorem identityChecks_eq_chain (man mod ser : Option String) (s : Instr) :
    identityChecks man mod ser s = idChain [man, mod, ser] s := by
  cases hm : checkIdentityField man s with
  | error e => simp [identityChecks, idChain, hm]
  | ok s1 =>
    cases hmo : checkIdentityField mod s1 with
    | error e => simp [identityChecks, idChain, hm, hmo]
    | ok s2 =>
      cases hs : checkIdentityField ser s2 with
      | error e => simp [identityChecks, idChain, hm, hmo, hs]
      | ok s3 => simp [identityChecks, idChain, hm, hmo, hs]

/-- C7 (confirmed): with the instrument answering the (at most one) `*IDN?`
query cleanly, the connection-time identity verification succeeds iff every
supplied manufacturer/model/serial substring is contained, case-insensitively,
in the `*IDN?` response; and every failure it raises is an identity-mismatch
error carrying the reported identity. -/
theorem c7_identity_verification (man mod ser : Option String) (s : Instr)
    (r0 r1 : String) (rest : List String)
    (hcache : s.idnCache = none) (hrx : s.rx = r0 :: r1 :: rest)
    (hclean : isCleanBase (decodeLine r1 s.termItoP) = true) :
    ((∃ s2, identityChecks man mod ser s = .ok s2) ↔
      ((∀ e, man = some e →
          occursIn (lowerL e.data) (lowerL (decodeLine r0 s.termItoP).data) = true) ∧
        (∀ e, mod = some e →
          occursIn (lowerL e.data) (lowerL (decodeLine r0 s.termItoP).data) = true) ∧
        (∀ e, ser = some e →
          occursIn (lowerL e.data) (lowerL (decodeLine r0 s.termItoP).data) = true))) ∧
    (∀ err s2, identityChecks man mod ser s = .error (err, s2) →
      ∃ e, err = .identityMismatch e (decodeLine r0 s.termItoP)) := by
  set v := decodeLine r0 s.termItoP with hv
  set sIdn : Instr := { s with
    tx := s.tx ++ [strBytes (encodeCmd "*IDN?" s.termPtoI),
      strBytes (encodeCmd "SYST:ERR?" s.termPtoI)],
    rx := rest, idnCache := some v } with hsIdn
  have hidn : idn s = .ok (v, sIdn) := by
    unfold idn
    rw [hcache, query_ok_of_clean "*IDN?" s r0 r1 rest hrx hclean]
    rfl
  have hidn2 : idn sIdn = .ok (v, sIdn) := by simp [idn, hsIdn]
  have hfresh : ∀ e : String, checkIdentityField (some e) s
      = if occursIn (lowerL e.data) (lowerL v.data) = true then .ok sIdn
        else .error (.identityMismatch e v, sIdn) := by
    intro e
    simp [checkIdentityField, hidn]
  have hcached : ∀ e : String, checkIdentityField (some e) sIdn
      = if occursIn (lowerL e.data) (lowerL v.data) = true then .ok sIdn
        else .error (.identityMismatch e v, sIdn) := by
    intro e
    simp [checkIdentityField, hidn2]
  have hchain : ∀ os : List (Option String), ∀ t : Instr,
      (∀ e : String, checkIdentityField (some e) t
        = if occursIn (lowerL e.data) (lowerL v.data) = true then .ok sIdn
          else .error (.identityMismatch e v, sIdn)) →
      ((∃ t2, idChain os t = .ok t2) ↔
        ∀ o ∈ os, ∀ e, o = some e →
          occursIn (lowerL e.data) (lowerL v.data) = true) ∧
      (∀ err t2, idChain os t = .error (err, t2) →
        ∃ e, err = .identityMismatch e v) := by
    intro os
    induction os with
    | nil =>
      intro t _
      constructor
      · simp [idChain]
      · intro err t2 h
        simp [idChain] at h
    | cons o os ih =>
      intro t ht
      cases o with
      | none =>
        have hstep : idChain (Option.none :: os) t = idChain os t := rfl
        rw [hstep]
        obtain ⟨ih1, ih2⟩ := ih t ht
        constructor
        · rw [ih1]
          simp
        · exact ih2
      | some e =>
        by_cases hc : occursIn (lowerL e.data) (lowerL v.data) = true
        · have hstep : idChain (some e :: os) t = idChain os sIdn := by
            simp only [idChain, ht e, if_pos hc]
          rw [hstep]
          obtain ⟨ih1, ih2⟩ := ih sIdn hcached
          constructor
          · rw [ih1]
            simp [hc]
          · exact ih2
        · have hstep : idChain (some e :: os) t
              = .error (.identityMismatch e v, sIdn) := by
            simp only [idChain, ht e, if_neg hc]
          rw [hstep]
          constructor
          · simp [hc]
          · intro err t2 h
            simp only [Except.error.injEq, Prod.mk.injEq] at h
            exact ⟨e, h.1.symm⟩
  rw [identityChecks_eq_chain]
  obtain ⟨h1, h2⟩ := hchain [man, mod, ser] s hfresh
  constructor
  · rw [h1]
    simp [List.forall_mem_cons]
  · exact h2

/-- Witness for `c7_identity_verification`: expected manufacturer `Agilent`
and model `33250A` are both contained (case-insensitively) in the reported
identity `AGILENT,33250A,0,SN1`, so the connection-time verification
succeeds. -/
theorem c7_identity_verification_witness :
    ∃ s2, identityChecks (some "Agilent") (some "33250A") Option.none instrIdn
      = .ok s2 :=
  (c7_identity_verification (some "Agilent") (some "33250A") Option.none
    instrIdn "AGILENT,33250A,0,SN1\n" "+0,\"No error\"\n" [] rfl rfl
    (by decide)).1.mpr
    (by
      refine ⟨?_, ?_, ?_⟩ <;> intro e he
      · injection he with h
        subst h
        decide
      · injection he with h
        subst h
        decide
      · exact absurd he (by simp))

theorem le_foldl_max (a : ℚ) (l : List ℚ) : a ≤ l.foldl max a := by
  induction l generalizing a with
  | nil => exact le_refl a
  | cons b t ih => exact le_trans (le_max_left a b) (ih (max a b))

theorem mem_le_foldl_max (l : List ℚ) : ∀ (a x : ℚ), x ∈ l → x ≤ l.foldl max a := by
  induction l with
  | nil =>
    intro a x hx
    simp at hx
  | cons b t ih =>
    intro a x hx
    rcases List.mem_cons.mp hx with rfl | hx
    · exact le_trans (le_max_right a x) (le_foldl_max (max a x) t)
    · exact ih (max a b) x hx

theorem foldl_max_of_le (l : List ℚ) : ∀ a : ℚ, (∀ x ∈ l, x ≤ a) → l.foldl max a = a := by
  induction l with
  | nil =>
    intro a _
    rfl
  | cons b t ih =>
    intro a h
    have hb : max a b = a := max_eq_left (h b (List.mem_cons_self b t))
    rw [List.foldl_cons, hb]
    exact ih a (fun x hx => h x (List.mem_cons_of_mem b hx))

theorem abs_le_maxAbsVoltage (l : List ℚ) (x : ℚ) (hx : x ∈ l) :
    |x| ≤ maxAbsVoltage l := by
  cases l with
  | nil => simp at hx
  | cons v vs =>
    rcases List.mem_cons.mp hx with rfl | hx
    · exact le_foldl_max _ _
    · exact mem_le_foldl_max _ _ _ (List.mem_map_of_mem _ hx)

/-- C10 (confirmed): `configure_arbitrary_waveform` divides every sample by
the maximum absolute sample value; for every non-empty all-zero sample list
the divisor is zero and the call fails with Python's division error while the
carried state is the input state — nothing has been sent to the instrument —
and for every list containing a nonzero sample, every normalized sample lies
in the interval `[-1, 1]`. -/
theorem c10_normalization (fmt fmtE : ℚ → String) (samples : List ℚ)
    (frequency : ℚ) (binary : Bool) (s : Instr) (hne : samples ≠ []) :
    ((∀ x ∈ samples, x = 0) →
      configureArbitraryWaveform fmt fmtE samples frequency binary s
        = .error (.zeroDivisionError, s)) ∧
    ((∃ x ∈ samples, x ≠ 0) →
      ∀ y ∈ samples.map (· / maxAbsVoltage samples), -1 ≤ y ∧ y ≤ 1) := by
  obtain ⟨v, vs, rfl⟩ : ∃ v vs, samples = v :: vs := by
    cases samples with
    | nil => exact absurd rfl hne
    | cons v vs => exact ⟨v, vs, rfl⟩
  constructor
  · intro hz
    have hM : maxAbsVoltage (v :: vs) = 0 := by
      show (vs.map (fun x => |x|)).foldl max |v| = 0
      have hv : |v| = 0 := by
        rw [abs_eq_zero]
        exact hz v (List.mem_cons_self v vs)
      rw [hv]
      apply foldl_max_of_le
      intro x hx
      rcases List.mem_map.mp hx with ⟨y, hy, rfl⟩
      rw [hz y (List.mem_cons_of_mem v hy), abs_zero]
    simp [configureArbitraryWaveform, hM]
  · rintro ⟨x0, hx0, hx0ne⟩ y hy
    have hMpos : 0 < maxAbsVoltage (v :: vs) :=
      lt_of_lt_of_le (abs_pos.mpr hx0ne) (abs_le_maxAbsVoltage _ x0 hx0)
    rcases List.mem_map.mp hy with ⟨x, hx, rfl⟩
    have habs : |x / maxAbsVoltage (v :: vs)| ≤ 1 := by
      rw [abs_div, abs_of_pos hMpos]
      exact (div_le_one hMpos).mpr (abs_le_maxAbsVoltage _ x hx)
    have := abs_le.mp habs
    exact ⟨this.1, this.2⟩

/-- Witness for `c10_normalization`: the all-zero list `[0, 0]` hits the
division error with no command sent, and for `[1, -2]` every normalized
sample lies in `[-1, 1]`. -/
theorem c10_normalization_witness :
    configureArbitraryWaveform (fun _ => "") (fun _ => "") [0, 0] 1 false instr0
      = .error (.zeroDivisionError, instr0) ∧
    (∀ y ∈ ([1, -2] : List ℚ).map (· / maxAbsVoltage [1, -2]), -1 ≤ y ∧ y ≤ 1) :=
  ⟨(c10_normalization (fun _ => "") (fun _ => "") [0, 0] 1 false instr0
      (by decide)).1 (by decide),
   (c10_normalization (fun _ => "") (fun _ => "") [1, -2] 1 false instr0
      (by decide)).2 ⟨1, by decide, by decide⟩⟩
